import Mathlib

/-!
Shallow embedding of `bevy_sentry` (src/lib.rs): a shim wiring the Sentry
error-reporting client into a Bevy app.  The Bevy world is modelled as the
resources this crate touches (`SentryConfig`, `Sentry`, the `SentryContext<T>`
resources keyed by an erased marker tag) plus the installed per-cycle systems.
Bevy's change detection is modelled, following the spec's design notes, as a
per-resource version counter compared against each system's last-observed
version.  The external client's global scope is an association list of named
contexts; every `scope.set_context` call is also recorded in a write log so
frame conditions ("performs no additional scope write") are statable.
-/

namespace BevySentry

/-- Sentry `Value` as used by this crate's contexts: string values. -/
abbrev Value := String

/-- The ordered `String → Value` mapping carried by a context
(`BTreeMap<String, Value>` in the source; the shim only ever clones and
forwards it whole, so an association list is a faithful rendering). -/
abbrev ContextMap := List (String × Value)

/-- External `sentry::ClientOptions`: opaque to the shim and passed through
unchanged; we keep the two fields the crate's docs mention. -/
structure ClientOptions where
  dsn : String
  release : String
deriving DecidableEq, Repr

/-- `sentry::ClientInitGuard`: the guard returned by `sentry::init`.  It
records the options the client was started with, so the embedding can state
that `build` passes the stored options to `init` unchanged. -/
structure ClientInitGuard where
  options : ClientOptions
deriving DecidableEq, Repr

/-- `sentry::init(options)`: starts the external client and returns its
cleanup guard. -/
def init (options : ClientOptions) : ClientInitGuard :=
  { options := options }

/-- `SentryConfig` (src/lib.rs): the configuration resource wrapping
`ClientOptions`; removed from the app during plugin setup. -/
structure SentryConfig where
  options : ClientOptions
deriving DecidableEq, Repr

/-- `SentryConfig::from_options` (src/lib.rs): converts the argument via its
`Into<ClientOptions>` conversion (here an explicit function `into`) and stores
the result verbatim. -/
def SentryConfig.from_options {C : Type} (into : C → ClientOptions) (options : C) :
    SentryConfig :=
  { options := into options }

/-- `Sentry` (src/lib.rs): runtime resource holding the client-init guard. -/
structure Sentry where
  guard : ClientInitGuard
deriving DecidableEq, Repr

/-- `SentryContext<T>` (src/lib.rs) with the phantom marker erased: the marker
type `T` is identified by a numeric tag at the registry level, which is all the
marker is used for (key uniqueness of resource slots and systems). -/
structure SentryContext where
  key : String
  context : ContextMap
deriving DecidableEq, Repr

/-- `SentryContext::new`. -/
def SentryContext.new (key : String) (context : ContextMap) : SentryContext :=
  { key := key, context := context }

/-- A stored `SentryContext<T>` resource together with Bevy's change tick:
`version` is bumped on every host insert/mutation of the resource. -/
structure ContextRes where
  ctx : SentryContext
  version : Nat
deriving DecidableEq, Repr

/-- Lookup of the `SentryContext<T>` resource slot for marker tag `tid`. -/
def lookupRes : List (Nat × ContextRes) → Nat → Option ContextRes
  | [], _ => none
  | (t, r) :: rest, tid => if t = tid then some r else lookupRes rest tid

/-- Host-side insert/update of the `SentryContext<T>` resource for tag `tid`:
stores the value and bumps the change version. -/
def updateRes : List (Nat × ContextRes) → Nat → SentryContext → List (Nat × ContextRes)
  | [], tid, c => [(tid, { ctx := c, version := 1 })]
  | (t, r) :: rest, tid, c =>
      if t = tid then (t, { ctx := c, version := r.version + 1 }) :: rest
      else (t, r) :: updateRes rest tid c

/-- The external client's global scope: named contexts keyed by string. -/
abbrev Scope := List (String × ContextMap)

/-- `scope.set_context(key, mapping)`: replaces any prior mapping stored under
`key`, keeping other entries. -/
def Scope.set_context : Scope → String → ContextMap → Scope
  | [], key, ctx => [(key, ctx)]
  | (k, v) :: rest, key, ctx =>
      if k = key then (key, ctx) :: rest else (k, v) :: Scope.set_context rest key ctx

/-- Reading the scope's entry under `key`. -/
def Scope.get : Scope → String → Option ContextMap
  | [], _ => none
  | (k, v) :: rest, key => if k = key then some v else Scope.get rest key

/-- The Bevy app/world as seen by this shim: the `SentryConfig` and `Sentry`
resources, the `SentryContext<T>` resource slots (keyed by marker tag), and
the installed per-cycle systems, each paired with the last resource version it
observed (its change-detection tick). -/
structure App where
  config : Option SentryConfig
  sentry : Option Sentry
  resources : List (Nat × ContextRes)
  systems : List (Nat × Nat)
deriving DecidableEq, Repr

/-- `SentryIntegration` (src/lib.rs): the plugin builder.  `systems` holds the
marker tags whose `set_sentry_context::<T>` system was added to the builder's
`SystemSet`; `initial_contexts` holds the queued initial context values. -/
structure SentryIntegration where
  systems : List Nat
  initial_contexts : List SentryContext
deriving DecidableEq, Repr

/-- `SentryIntegration::new()`. -/
def SentryIntegration.new : SentryIntegration :=
  { systems := [], initial_contexts := [] }

/-- `SentryIntegration::register_context::<T>(initial_value)` (src/lib.rs
lines 61–71), with the marker type `T` identified by `tid`: always adds the
`set_sentry_context::<T>` system, and queues the initial value if supplied. -/
def SentryIntegration.register_context (self : SentryIntegration) (tid : Nat)
    (initial_value : Option SentryContext) : SentryIntegration :=
  { systems := self.systems ++ [tid]
    initial_contexts :=
      match initial_value with
      | some context => self.initial_contexts ++ [context]
      | none => self.initial_contexts }

/-- The outcome of `SentryIntegration::build`: the app, the external scope,
the list of `set_context` scope writes performed (in order), and the number of
error-level log messages emitted. -/
structure BuildOutcome where
  app : App
  scope : Scope
  scope_writes : List (String × ContextMap)
  error_logs : Nat
deriving DecidableEq, Repr

/-- `SentryIntegration::build(app)` (src/lib.rs lines 76–95): if a
`SentryConfig` resource is present, remove it, start the client and insert the
`Sentry` resource, push the queued initial contexts into the scope (guarded by
a non-emptiness test, as in the source), and install the registered systems;
otherwise log one error and do nothing else. -/
def SentryIntegration.build (self : SentryIntegration) (app : App) (scope : Scope) :
    BuildOutcome :=
  match app.config with
  | some configuration =>
      let app1 : App :=
        { app with config := none, sentry := some { guard := init configuration.options } }
      let pushes := self.initial_contexts.map fun c => (c.key, c.context)
      let scope1 :=
        if self.initial_contexts.isEmpty then scope
        else pushes.foldl (fun s p => Scope.set_context s p.1 p.2) scope
      let app2 : App :=
        { app1 with systems := app1.systems ++ self.systems.map fun tid => (tid, 0) }
      { app := app2
        scope := scope1
        scope_writes := if self.initial_contexts.isEmpty then [] else pushes
        error_logs := 0 }
  | none =>
      { app := app, scope := scope, scope_writes := [], error_logs := 1 }

/-- One run of the per-cycle system `set_sentry_context::<T>` (src/lib.rs
lines 160–171) for marker tag `tid`.  `lastSeen` is the system's
change-detection tick; `context.is_changed()` holds exactly when the
resource's version is newer than `lastSeen`.  Returns the system's updated
tick, the scope, and the scope writes performed during this run. -/
def set_sentry_context (tid lastSeen : Nat) (resources : List (Nat × ContextRes))
    (scope : Scope) : Nat × Scope × List (String × ContextMap) :=
  match lookupRes resources tid with
  | some context =>
      if lastSeen < context.version then
        (context.version, Scope.set_context scope context.ctx.key context.ctx.context,
          [(context.ctx.key, context.ctx.context)])
      else (lastSeen, scope, [])
  | none => (lastSeen, scope, [])

/-- One scheduling cycle of the host app: run every installed
`set_sentry_context` system in order, threading the scope and recording all
scope writes. -/
def run_cycle (app : App) (scope : Scope) :
    App × Scope × List (String × ContextMap) :=
  let r := app.systems.foldl
    (fun (acc : List (Nat × Nat) × Scope × List (String × ContextMap)) sys =>
      let step := set_sentry_context sys.1 sys.2 app.resources acc.2.1
      (acc.1 ++ [(sys.1, step.1)], step.2.1, acc.2.2 ++ step.2.2))
    ([], scope, [])
  ({ app with systems := r.1 }, r.2.1, r.2.2)

/-- Modelled from the spec: container teardown is not code of this repository
(it lives in Bevy's `World` drop glue and Rust's ownership rules).  Per the
spec, tearing down the container drops each stored resource exactly once, and
dropping the `Sentry` resource runs its `ClientInitGuard` cleanup, which
best-effort flushes pending reports.  `teardown` returns the options of every
cleanup-guard invocation, in drop order. -/
def teardown (app : App) : List ClientOptions :=
  match app.sentry with
  | some s => [s.guard.options]
  | none => []

/-- Sample client options used by witnesses. -/
def opts0 : ClientOptions :=
  { dsn := "https://examplePublicKey@o0.ingest.sentry.io/0", release := "bevy_sentry@0.1.0" }

/-- Sample app with a `SentryConfig` resource, used by witnesses. -/
def app0 : App :=
  { config := some { options := opts0 }, sentry := none, resources := [], systems := [] }

/-- Sample app holding no `SentryConfig` resource, used by witnesses. -/
def appNone : App :=
  { config := none, sentry := none, resources := [], systems := [] }

/-- The example's "Character" context, used by witnesses. -/
def character_context : SentryContext :=
  SentryContext.new "Character" [("name", "Nikl"), ("age", "38")]

/-- A stored resource slot holding `character_context`, used by witnesses. -/
def res0 : ContextRes :=
  { ctx := character_context, version := 1 }

theorem Scope.get_set_self (s : Scope) (key : String) (ctx : ContextMap) :
    Scope.get (Scope.set_context s key ctx) key = some ctx := by
  induction s with
  | nil => simp [Scope.set_context, Scope.get]
  | cons hd tl ih =>
      obtain ⟨k, v⟩ := hd
      by_cases h : k = key <;> simp [Scope.set_context, Scope.get, h, ih]

theorem Scope.get_set_ne (s : Scope) (key key' : String) (ctx : ContextMap)
    (h : key ≠ key') :
    Scope.get (Scope.set_context s key ctx) key' = Scope.get s key' := by
  induction s with
  | nil => simp [Scope.set_context, Scope.get, h]
  | cons hd tl ih =>
      obtain ⟨k, v⟩ := hd
      by_cases hk : k = key <;> simp [Scope.set_context, Scope.get, hk, h, ih]

theorem Scope.get_foldl_ne (l : List (String × ContextMap)) (s : Scope) (key : String)
    (h : ∀ p ∈ l, p.1 ≠ key) :
    Scope.get (l.foldl (fun sc p => Scope.set_context sc p.1 p.2) s) key =
      Scope.get s key := by
  induction l generalizing s with
  | nil => rfl
  | cons hd tl ih =>
      rw [List.foldl_cons, ih _ fun p hp => h p (List.mem_cons_of_mem _ hp),
        Scope.get_set_ne _ _ _ _ (h hd (List.mem_cons_self _ _))]

theorem build_none_eq (si : SentryIntegration) (app : App) (scope : Scope)
    (h : app.config = none) :
    si.build app scope = { app := app, scope := scope, scope_writes := [], error_logs := 1 } := by
  simp [SentryIntegration.build, h]

/-- C1: if the app holds a `SentryConfig` resource, then after `build` the
configuration resource is gone and a `Sentry` resource wrapping the guard
returned by `init` on its options is present. -/
theorem build_consumes_config (si : SentryIntegration) (app : App) (scope : Scope)
    (cfg : SentryConfig) (h : app.config = some cfg) :
    (si.build app scope).app.config = none ∧
      (si.build app scope).app.sentry = some { guard := init cfg.options } := by
  simp [SentryIntegration.build, h]

theorem build_consumes_config_witness :
    (SentryIntegration.new.build app0 []).app.config = none ∧
      (SentryIntegration.new.build app0 []).app.sentry =
        some { guard := init opts0 } :=
  build_consumes_config SentryIntegration.new app0 [] { options := opts0 } rfl

/-- C2: if the app holds no `SentryConfig` resource, `build` creates no
`Sentry` resource, emits exactly one error-level log message, performs no
scope write, and leaves the app (all resources and the task set) and the
scope unchanged. -/
theorem build_no_config_noop (si : SentryIntegration) (app : App) (scope : Scope)
    (h : app.config = none) :
    si.build app scope =
      { app := app, scope := scope, scope_writes := [], error_logs := 1 } :=
  build_none_eq si app scope h

theorem build_no_config_noop_witness :
    SentryIntegration.new.build
        { config := none, sentry := none, resources := [(0, res0)], systems := [] } [] =
      { app := { config := none, sentry := none, resources := [(0, res0)], systems := [] }
        scope := []
        scope_writes := []
        error_logs := 1 } :=
  build_no_config_noop SentryIntegration.new
    { config := none, sentry := none, resources := [(0, res0)], systems := [] } [] rfl

/-- C3: one run of the sync system for tag `tid` performs a scope write iff a
`SentryContext` resource for `tid` exists and its version is newer than the
system's last-observed tick; when it does, the scope's entry under the
resource's key is replaced by the resource's current mapping, exactly that one
write is performed, and a second run without further mutation performs no
additional scope write. -/
theorem set_sentry_context_sync (tid lastSeen : Nat)
    (resources : List (Nat × ContextRes)) (scope : Scope) :
    ((set_sentry_context tid lastSeen resources scope).2.2 ≠ [] ↔
        ∃ r, lookupRes resources tid = some r ∧ lastSeen < r.version) ∧
      ∀ r, lookupRes resources tid = some r → lastSeen < r.version →
        (set_sentry_context tid lastSeen resources scope).2.1 =
            Scope.set_context scope r.ctx.key r.ctx.context ∧
          (set_sentry_context tid lastSeen resources scope).2.2 =
            [(r.ctx.key, r.ctx.context)] ∧
          (set_sentry_context tid (set_sentry_context tid lastSeen resources scope).1
              resources (set_sentry_context tid lastSeen resources scope).2.1).2.2 = [] := by
  cases hres : lookupRes resources tid with
  | none => simp [set_sentry_context, hres]
  | some r =>
      by_cases hch : lastSeen < r.version
      · simp [set_sentry_context, hres, hch]
      · simp [set_sentry_context, hres, hch, Nat.le_of_not_lt hch]

theorem set_sentry_context_sync_witness :
    (set_sentry_context 0 0 [(0, res0)] []).2.1 =
        Scope.set_context [] res0.ctx.key res0.ctx.context ∧
      (set_sentry_context 0 0 [(0, res0)] []).2.2 = [(res0.ctx.key, res0.ctx.context)] ∧
      (set_sentry_context 0 (set_sentry_context 0 0 [(0, res0)] []).1 [(0, res0)]
          (set_sentry_context 0 0 [(0, res0)] []).2.1).2.2 = [] :=
  (set_sentry_context_sync 0 0 [(0, res0)] []).2 res0 rfl (by decide)

theorem get_foldl_pushes (l₁ l₂ : List SentryContext) (c : SentryContext) (s : Scope)
    (h : ∀ c' ∈ l₂, c'.key ≠ c.key) :
    Scope.get
        (((l₁ ++ c :: l₂).map fun x => (x.key, x.context)).foldl
          (fun sc p => Scope.set_context sc p.1 p.2) s) c.key = some c.context := by
  rw [List.map_append, List.map_cons, List.foldl_append, List.foldl_cons]
  rw [Scope.get_foldl_ne]
  · exact Scope.get_set_self _ _ _
  · intro p hp
    simp only [List.mem_map] at hp
    obtain ⟨c', hc', rfl⟩ := hp
    exact h c' hc'

/-- C4: for a context registered with an initial value whose key is not reused
by a later-registered initial value, a `build` on an app holding a
`SentryConfig` leaves the scope's entry under that key equal to exactly the
supplied mapping — for every app, so in particular independently of which
`SentryContext` resources are installed. -/
theorem build_initial_context (si : SentryIntegration) (app : App) (scope : Scope)
    (cfg : SentryConfig) (c : SentryContext) (l₁ l₂ : List SentryContext)
    (hcfg : app.config = some cfg)
    (hmem : si.initial_contexts = l₁ ++ c :: l₂)
    (hlast : ∀ c' ∈ l₂, c'.key ≠ c.key) :
    Scope.get (si.build app scope).scope c.key = some c.context := by
  have hne : si.initial_contexts.isEmpty = false := by
    rw [hmem]
    cases l₁ <;> rfl
  simp only [SentryIntegration.build, hcfg, hne, Bool.false_eq_true, if_false]
  rw [hmem]
  exact get_foldl_pushes l₁ l₂ c scope hlast

theorem build_initial_context_witness :
    Scope.get
        ((SentryIntegration.new.register_context 0 (some character_context)).build app0
          []).scope character_context.key = some character_context.context :=
  build_initial_context (SentryIntegration.new.register_context 0 (some character_context))
    app0 [] { options := opts0 } character_context [] [] rfl rfl
    (fun c' hc' => absurd hc' (List.not_mem_nil c'))

/-- C5: a run of the sync system for one tag never changes the scope's entry
under any key other than the key of that tag's resource: if the resource for
`tid` (when present) has a key different from `key`, the scope reads the same
at `key` before and after the run. -/
theorem set_sentry_context_frame (tid lastSeen : Nat)
    (resources : List (Nat × ContextRes)) (scope : Scope) (key : String)
    (h : ∀ r, lookupRes resources tid = some r → r.ctx.key ≠ key) :
    Scope.get (set_sentry_context tid lastSeen resources scope).2.1 key =
      Scope.get scope key := by
  cases hres : lookupRes resources tid with
  | none => simp [set_sentry_context, hres]
  | some r =>
      by_cases hch : lastSeen < r.version
      · simp [set_sentry_context, hres, hch, Scope.get_set_ne _ _ _ _ (h r hres)]
      · simp [set_sentry_context, hres, hch]

theorem set_sentry_context_frame_witness :
    Scope.get (set_sentry_context 0 0 [(0, res0)] [("Level", [("id", "3")])]).2.1 "Level" =
      Scope.get [("Level", [("id", "3")])] "Level" :=
  set_sentry_context_frame 0 0 [(0, res0)] [("Level", [("id", "3")])] "Level" (by
    intro r hr
    have h0 : some res0 = some r := hr
    cases h0
    decide)

/-- C6: a `build` on an app holding a `SentryConfig` removes it, and any later
`build` on the resulting app finds no configuration, starts no second client,
changes nothing, and just logs one error. -/
theorem build_single_use (si si' : SentryIntegration) (app : App) (scope scope' : Scope)
    (cfg : SentryConfig) (h : app.config = some cfg) :
    (si.build app scope).app.config = none ∧
      si'.build (si.build app scope).app scope' =
        { app := (si.build app scope).app, scope := scope', scope_writes := [],
          error_logs := 1 } := by
  refine ⟨?_, ?_⟩
  · simp [SentryIntegration.build, h]
  · exact build_none_eq si' _ scope' (by simp [SentryIntegration.build, h])

theorem build_single_use_witness :
    (SentryIntegration.new.build app0 []).app.config = none ∧
      SentryIntegration.new.build (SentryIntegration.new.build app0 []).app [] =
        { app := (SentryIntegration.new.build app0 []).app, scope := [],
          scope_writes := [], error_logs := 1 } :=
  build_single_use SentryIntegration.new SentryIntegration.new app0 [] []
    { options := opts0 } rfl

/-- C7: `from_options` stores the converted options verbatim (and, being a
pure constructor, has no other effect), and `build` passes exactly the stored
options, unchanged, to the client's `init`. -/
theorem from_options_passthrough {C : Type} (into : C → ClientOptions) (options : C)
    (si : SentryIntegration) (app : App) (scope : Scope)
    (h : app.config = some (SentryConfig.from_options into options)) :
    (SentryConfig.from_options into options).options = into options ∧
      (si.build app scope).app.sentry = some { guard := init (into options) } := by
  refine ⟨rfl, ?_⟩
  simp [SentryIntegration.build, h, SentryConfig.from_options]

theorem from_options_passthrough_witness :
    (SentryConfig.from_options id opts0).options = id opts0 ∧
      (SentryIntegration.new.build
          { config := some (SentryConfig.from_options id opts0), sentry := none,
            resources := [], systems := [] } []).app.sentry =
        some { guard := init (id opts0) } :=
  from_options_passthrough id opts0 SentryIntegration.new
    { config := some (SentryConfig.from_options id opts0), sentry := none,
      resources := [], systems := [] } [] rfl

/-- C8: tearing down the container of an app on which `build` completed with a
configuration invokes the `Sentry` resource's cleanup guard exactly once — the
drop log is exactly one invocation, for the client started on the consumed
configuration's options. -/
theorem teardown_after_build (si : SentryIntegration) (app : App) (scope : Scope)
    (cfg : SentryConfig) (h : app.config = some cfg) :
    teardown (si.build app scope).app = [cfg.options] := by
  simp [SentryIntegration.build, h, teardown, init]

theorem teardown_after_build_witness :
    teardown (SentryIntegration.new.build app0 []).app = [opts0] :=
  teardown_after_build SentryIntegration.new app0 [] { options := opts0 } rfl

/-- C9: a `build` on an app with no `SentryConfig` installs none of the
registered sync systems, so if the app had no systems, then whatever
`SentryContext` resources the host later installs or mutates, a scheduling
cycle performs no scope write and leaves the scope unchanged. -/
theorem build_no_config_no_sync (si : SentryIntegration) (app : App) (scope : Scope)
    (h : app.config = none) :
    (si.build app scope).app.systems = app.systems ∧
      (app.systems = [] → ∀ res' scope₂,
        run_cycle { (si.build app scope).app with resources := res' } scope₂ =
          ({ (si.build app scope).app with resources := res' }, scope₂, [])) := by
  rw [build_none_eq si app scope h]
  refine ⟨rfl, ?_⟩
  intro hsys res' scope₂
  obtain ⟨c, s, r, sys⟩ := app
  simp only at hsys
  subst hsys
  simp [run_cycle]

theorem build_no_config_no_sync_witness :
    ((SentryIntegration.new.register_context 0 (some character_context)).build
          appNone []).app.systems = appNone.systems ∧
      run_cycle
          { ((SentryIntegration.new.register_context 0 (some character_context)).build
              appNone []).app with resources := [(0, res0)] } [] =
        ({ ((SentryIntegration.new.register_context 0 (some character_context)).build
            appNone []).app with resources := [(0, res0)] }, [], []) := by
  have h := build_no_config_no_sync
    (SentryIntegration.new.register_context 0 (some character_context)) appNone [] rfl
  exact ⟨h.1, h.2 rfl [(0, res0)] []⟩

/-- C10: if the register phase queued no initial contexts, `build` performs no
scope write and leaves the external scope unchanged. -/
theorem build_no_initial_no_write (si : SentryIntegration) (app : App) (scope : Scope)
    (h : si.initial_contexts = []) :
    (si.build app scope).scope = scope ∧ (si.build app scope).scope_writes = [] := by
  cases hc : app.config with
  | none => simp [SentryIntegration.build, hc]
  | some cfg => simp [SentryIntegration.build, hc, h]

theorem build_no_initial_no_write_witness :
    ((SentryIntegration.new.register_context 0 none).build app0 []).scope = [] ∧
      ((SentryIntegration.new.register_context 0 none).build app0 []).scope_writes = [] :=
  build_no_initial_no_write (SentryIntegration.new.register_context 0 none) app0 [] rfl

end BevySentry
